import Mathlib

/-!
# Bookstore API — verification of the Author/Book referential-integrity and query layer

Shallow embedding of the Express + Knex CRUD service in
`src/routes/authorRoutes.ts`, `src/routes/bookRoutes.ts`,
`src/middleware/errorHandler.ts`, `src/utils/httpError.ts`, and the
`authors`/`books` schema from the migration.

The relational store is modelled as two lists of rows plus the next
auto-increment id for each table (Postgres `increments` starts at 1).
Each route handler becomes a pure function from the store (and the
request parameters) to a result — either a successful response or a
thrown `HttpError` — together with the post-state of the store.
JavaScript's `Number()` coercion of path/query strings is modelled by
`jsNumber`, with `none` standing for `NaN` (which matches no row in a
`where` clause).
-/

/-- An `authors` table row: `id` pk auto-increment, `name` not null,
`bio` nullable, `birthdate` date not null (dates kept as strings). -/
structure Author where
  id : Int
  name : String
  bio : Option String
  birthdate : String
deriving Repr, DecidableEq

/-- A `books` table row: `id` pk auto-increment, `title` not null,
`description` nullable, `published_date` not null, `author_id` not null
(references `authors.id`). -/
structure Book where
  id : Int
  title : String
  description : Option String
  published_date : String
  author_id : Int
deriving Repr, DecidableEq

/-- The relational store: both tables plus each table's next
auto-increment key. -/
structure Store where
  authors : List Author
  books : List Book
  nextAuthorId : Int
  nextBookId : Int
deriving Repr, DecidableEq

/-- The database right after the migration: both tables empty,
auto-increment counters at 1. -/
def emptyStore : Store := ⟨[], [], 1, 1⟩

/-- `HttpError` from `src/utils/httpError.ts`: a message and an HTTP
status code, thrown by handlers and caught by the error middleware. -/
structure HttpError where
  message : String
  statusCode : Nat
deriving Repr, DecidableEq

/-- Outcome of one route handler: a successful response with a status
code and a body, or a thrown `HttpError`. -/
inductive HResult (α : Type) where
  | success (status : Nat) (body : α)
  | failure (e : HttpError)
deriving Repr, DecidableEq

/-- Characters JavaScript's `Number()` trims from a string argument
(the common whitespace forms suffice for this model). -/
def isJsSpace (c : Char) : Bool :=
  c == ' ' || c == '\t' || c == '\n' || c == '\r'

/-- Reads a nonempty all-digit character list as a natural number;
any other list is rejected. -/
def parseDigits (cs : List Char) : Option Nat :=
  if cs.isEmpty then none
  else if cs.all Char.isDigit then
    some (cs.foldl (fun n c => n * 10 + (c.toNat - 48)) 0)
  else none

/-- Model of JavaScript `Number()` on strings, restricted to
optional-sign decimal integers: the string is trimmed, the empty string
coerces to `0`, a (signed) digit string to its value, and anything else
to `NaN`, represented by `none`. -/
def jsNumber (s : String) : Option Int :=
  let cs := ((s.data.dropWhile isJsSpace).reverse.dropWhile isJsSpace).reverse
  match cs with
  | [] => some 0
  | c :: rest =>
    if c = '-' then (parseDigits rest).map (fun n => -(n : Int))
    else if c = '+' then (parseDigits rest).map (fun n => (n : Int))
    else (parseDigits cs).map (fun n => (n : Int))

/-- Whether a Knex `where` comparison against the coerced number matches
a stored integer column value; `NaN` (`none`) matches no row. -/
def numMatches (idNum : Option Int) (v : Int) : Bool :=
  match idNum with
  | none => false
  | some n => n == v

/-- JavaScript truthiness of a query-string value: present and
nonempty. -/
def jsTruthy (q : String) : Bool := q != ""

/-- Request body accepted by `POST /authors` and `PUT /authors/:id`
after validation (`name` already trimmed by the sanitizer). -/
structure AuthorBody where
  name : String
  bio : Option String
  birthdate : String
deriving Repr, DecidableEq

/-- Request body accepted by `POST /books` and `PUT /books/:id` after
validation (`author_id` checked by `isInt`). -/
structure BookBody where
  title : String
  description : Option String
  published_date : String
  author_id : Int
deriving Repr, DecidableEq

/-- Model of `express-validator`'s `isISO8601`, restricted to the
calendar-date form `YYYY-MM-DD`. -/
def isISO8601Date (s : String) : Bool :=
  match s.data with
  | [y1, y2, y3, y4, '-', m1, m2, '-', d1, d2] =>
    ([y1, y2, y3, y4, m1, m2, d1, d2].all Char.isDigit) &&
    (let m := (m1.toNat - 48) * 10 + (m2.toNat - 48)
     1 ≤ m && m ≤ 12) &&
    (let d := (d1.toNat - 48) * 10 + (d2.toNat - 48)
     1 ≤ d && d ≤ 31)
  | _ => false

/-- The validation chain on author bodies: `name` nonempty after
trimming (the body reaching the handler is already trimmed),
`birthdate` a valid ISO-8601 date. -/
def validAuthorBody (b : AuthorBody) : Prop :=
  b.name ≠ "" ∧ isISO8601Date b.birthdate = true

instance (b : AuthorBody) : Decidable (validAuthorBody b) := by
  unfold validAuthorBody
  infer_instance

/-- `GET /authors/:id` after `Number(id)` coercion:
`db('authors').where({id: Number(id)}).first()`, 404 when absent. -/
def getAuthorByIdCore (s : Store) (idNum : Option Int) : HResult Author :=
  match s.authors.find? (fun a => numMatches idNum a.id) with
  | some a => .success 200 a
  | none => .failure ⟨"Author not found", 404⟩

/-- `GET /authors/:id` on the raw path parameter. -/
def getAuthorById (s : Store) (idStr : String) : HResult Author :=
  getAuthorByIdCore s (jsNumber idStr)

/-- `POST /authors`: inserts `{name, bio, birthdate}`, storage assigns
the next id, responds 201 with the created row. -/
def createAuthor (s : Store) (b : AuthorBody) : HResult Author × Store :=
  let a : Author := ⟨s.nextAuthorId, b.name, b.bio, b.birthdate⟩
  (.success 201 a,
   { s with authors := s.authors ++ [a], nextAuthorId := s.nextAuthorId + 1 })

/-- `PUT /authors/:id` after `Number(id)` coercion: full-replace update
of `{name, bio, birthdate}` on the matching rows, 404 when
`returning('*')` yields no row. -/
def updateAuthorCore (s : Store) (idNum : Option Int) (b : AuthorBody) :
    HResult Author × Store :=
  let newAuthors := s.authors.map (fun a =>
    if numMatches idNum a.id then
      { a with name := b.name, bio := b.bio, birthdate := b.birthdate }
    else a)
  let rows := newAuthors.filter (fun a => numMatches idNum a.id)
  match rows.head? with
  | none => (.failure ⟨"Author not found", 404⟩, { s with authors := newAuthors })
  | some a => (.success 200 a, { s with authors := newAuthors })

/-- `PUT /authors/:id` on the raw path parameter. -/
def updateAuthor (s : Store) (idStr : String) (b : AuthorBody) :
    HResult Author × Store :=
  updateAuthorCore s (jsNumber idStr) b

/-- `DELETE /authors/:id` after `Number(id)` coercion: first fetches the
books with matching `author_id` and fails 400 when any exist; otherwise
deletes the matching author rows, 404 when the delete count is zero. -/
def deleteAuthorCore (s : Store) (idNum : Option Int) : HResult Unit × Store :=
  let deps := s.books.filter (fun bk => numMatches idNum bk.author_id)
  if deps.length > 0 then
    (.failure ⟨"Cannot delete author with associated books", 400⟩, s)
  else
    let remaining := s.authors.filter (fun a => !(numMatches idNum a.id))
    if remaining.length = s.authors.length then
      (.failure ⟨"Author not found", 404⟩, { s with authors := remaining })
    else
      (.success 204 (), { s with authors := remaining })

/-- `DELETE /authors/:id` on the raw path parameter. -/
def deleteAuthor (s : Store) (idStr : String) : HResult Unit × Store :=
  deleteAuthorCore s (jsNumber idStr)

/-- A row of the `GET /books` listing: `books.*` plus
`authors.name as author_name` from the left join (null when no author
matches). -/
structure BookRow where
  id : Int
  title : String
  description : Option String
  published_date : String
  author_id : Int
  author_name : Option String
deriving Repr, DecidableEq

/-- The left join `books ⟕ authors on books.author_id = authors.id`
applied to one book row. -/
def joinRow (s : Store) (bk : Book) : BookRow :=
  ⟨bk.id, bk.title, bk.description, bk.published_date, bk.author_id,
   (s.authors.find? (fun a => a.id == bk.author_id)).map Author.name⟩

/-- Forgets the `author_name` annotation of a joined row. -/
def stripRow (r : BookRow) : Book :=
  ⟨r.id, r.title, r.description, r.published_date, r.author_id⟩

/-- `GET /books`: the joined listing, restricted by
`where({author_id: Number(author)})` only when the `author` query value
is truthy. -/
def listBooks (s : Store) (authorParam : Option String) : List BookRow :=
  let rows := s.books.map (joinRow s)
  match authorParam with
  | none => rows
  | some q =>
    if jsTruthy q then rows.filter (fun r => numMatches (jsNumber q) r.author_id)
    else rows

/-- `GET /books/:id` after `Number(id)` coercion: the joined query
filtered by `books.id`, `.first()`, 404 when absent. -/
def getBookByIdCore (s : Store) (idNum : Option Int) : HResult BookRow :=
  match (s.books.map (joinRow s)).find? (fun r => numMatches idNum r.id) with
  | some r => .success 200 r
  | none => .failure ⟨"Book not found", 404⟩

/-- `GET /books/:id` on the raw path parameter. -/
def getBookById (s : Store) (idStr : String) : HResult BookRow :=
  getBookByIdCore s (jsNumber idStr)

/-- `POST /books`: looks up the author by the body's `author_id` and
fails 404 before inserting when absent; otherwise inserts and responds
201 with the created row. -/
def createBook (s : Store) (b : BookBody) : HResult Book × Store :=
  match s.authors.find? (fun a => a.id == b.author_id) with
  | none => (.failure ⟨"Author not found", 404⟩, s)
  | some _ =>
    let bk : Book := ⟨s.nextBookId, b.title, b.description, b.published_date, b.author_id⟩
    (.success 201 bk,
     { s with books := s.books ++ [bk], nextBookId := s.nextBookId + 1 })

/-- `PUT /books/:id` after `Number(id)` coercion: the author lookup runs
first and fails 404 when absent; then the full-replace update on the
matching book rows, 404 when `returning('*')` yields no row. -/
def updateBookCore (s : Store) (idNum : Option Int) (b : BookBody) :
    HResult Book × Store :=
  match s.authors.find? (fun a => a.id == b.author_id) with
  | none => (.failure ⟨"Author not found", 404⟩, s)
  | some _ =>
    let newBooks := s.books.map (fun bk =>
      if numMatches idNum bk.id then
        { bk with title := b.title, description := b.description,
                  published_date := b.published_date, author_id := b.author_id }
      else bk)
    let rows := newBooks.filter (fun bk => numMatches idNum bk.id)
    match rows.head? with
    | none => (.failure ⟨"Book not found", 404⟩, { s with books := newBooks })
    | some bk => (.success 200 bk, { s with books := newBooks })

/-- `PUT /books/:id` on the raw path parameter. -/
def updateBook (s : Store) (idStr : String) (b : BookBody) :
    HResult Book × Store :=
  updateBookCore s (jsNumber idStr) b

/-- `DELETE /books/:id` after `Number(id)` coercion: deletes the
matching book rows, 404 when the delete count is zero. -/
def deleteBookCore (s : Store) (idNum : Option Int) : HResult Unit × Store :=
  let remaining := s.books.filter (fun bk => !(numMatches idNum bk.id))
  if remaining.length = s.books.length then
    (.failure ⟨"Book not found", 404⟩, { s with books := remaining })
  else
    (.success 204 (), { s with books := remaining })

/-- `DELETE /books/:id` on the raw path parameter. -/
def deleteBook (s : Store) (idStr : String) : HResult Unit × Store :=
  deleteBookCore s (jsNumber idStr)

/-- One mutating request, carrying the validated body and the coerced
path id (`none` for a `NaN` coercion). -/
inductive Op where
  | createAuthor (b : AuthorBody)
  | updateAuthor (idNum : Option Int) (b : AuthorBody)
  | deleteAuthor (idNum : Option Int)
  | createBook (b : BookBody)
  | updateBook (idNum : Option Int) (b : BookBody)
  | deleteBook (idNum : Option Int)
deriving Repr, DecidableEq

/-- The store left behind by one sequentially executed request
(the response is discarded). -/
def applyOp (s : Store) : Op → Store
  | .createAuthor b => (createAuthor s b).2
  | .updateAuthor i b => (updateAuthorCore s i b).2
  | .deleteAuthor i => (deleteAuthorCore s i).2
  | .createBook b => (createBook s b).2
  | .updateBook i b => (updateBookCore s i b).2
  | .deleteBook i => (deleteBookCore s i).2

/-- The store reached from the freshly migrated database by a sequence
of requests. -/
def runOps (ops : List Op) : Store := ops.foldl applyOp emptyStore

/-- Referential integrity: every book's `author_id` references a
currently-existing author row. -/
def refIntact (s : Store) : Prop :=
  ∀ bk ∈ s.books, ∃ a ∈ s.authors, a.id = bk.author_id

/-- The `ApiError` shape from `src/types/index.ts` as seen by the error
middleware: a message and an optional declared HTTP status code. -/
structure ApiError where
  message : String
  statusCode : Option Nat
deriving Repr, DecidableEq

/-- `errorHandler` from `src/middleware/errorHandler.ts`:
`statusCode = err.statusCode || 500` (JavaScript `||`, so an undefined
or falsy `0` code both fall back to 500);
`message = statusCode === 500 ? 'Internal Server Error' : err.message`;
the response is `res.status(statusCode).json({ error: message })`,
returned here as the pair (status, error-field). -/
def errorHandler (err : ApiError) : Nat × String :=
  let statusCode := match err.statusCode with
    | none => 500
    | some n => if n = 0 then 500 else n
  let message := if statusCode = 500 then "Internal Server Error" else err.message
  (statusCode, message)

/-- A thrown `HttpError` as it reaches the error middleware: its
`statusCode` field is always present. -/
def HttpError.toApiError (e : HttpError) : ApiError :=
  ⟨e.message, some e.statusCode⟩

/-- The spec's concrete scenario: Jane Austen (id 1) with one book
(id 1) referencing her; both auto-increment counters at 2. -/
def sampleStore : Store :=
  ⟨[⟨1, "Jane Austen", none, "1775-12-16"⟩],
   [⟨1, "Pride and Prejudice", none, "1813-01-28", 1⟩], 2, 2⟩

/-! ## Helper lemmas -/

theorem map_eq_self_of {α : Type} {f : α → α} {l : List α}
    (h : ∀ x ∈ l, f x = x) : l.map f = l :=
  (List.map_congr_left h).trans (List.map_id l)

theorem int_beq_comm (i x : Int) : (i == x) = (x == i) := by
  by_cases h : i = x
  · subst h; rfl
  · rw [beq_eq_false_iff_ne.mpr h, beq_eq_false_iff_ne.mpr (Ne.symm h)]

theorem numMatches_none (v : Int) : numMatches none v = false := rfl

theorem numMatches_some (n v : Int) : numMatches (some n) v = (n == v) := rfl

theorem refIntact_createAuthor (s : Store) (b : AuthorBody)
    (h : refIntact s) : refIntact (createAuthor s b).2 := by
  intro bk hbk
  obtain ⟨a, ha, hid⟩ := h bk hbk
  exact ⟨a, List.mem_append_left _ ha, hid⟩

theorem refIntact_updateAuthor (s : Store) (i : Option Int) (b : AuthorBody)
    (h : refIntact s) : refIntact (updateAuthorCore s i b).2 := by
  have hsnd : ∀ t : Store, (updateAuthorCore s i b).2.books = s.books ∧
      (updateAuthorCore s i b).2.authors = s.authors.map (fun a =>
        if numMatches i a.id then
          { a with name := b.name, bio := b.bio, birthdate := b.birthdate }
        else a) := by
    intro _
    unfold updateAuthorCore
    dsimp only
    split <;> exact ⟨rfl, rfl⟩
  obtain ⟨hbooks, hauthors⟩ := hsnd emptyStore
  intro bk hbk
  rw [hbooks] at hbk
  obtain ⟨a, ha, hid⟩ := h bk hbk
  rw [hauthors]
  refine ⟨_, List.mem_map.mpr ⟨a, ha, rfl⟩, ?_⟩
  by_cases hc : numMatches i a.id = true <;>
    simp only [hc, if_true, if_false] <;> exact hid

theorem refIntact_deleteAuthor (s : Store) (i : Option Int)
    (h : refIntact s) : refIntact (deleteAuthorCore s i).2 := by
  unfold deleteAuthorCore
  dsimp only
  split
  · exact h
  · rename_i hdeps
    have hnil : s.books.filter (fun bk => numMatches i bk.author_id) = [] := by
      cases hf : s.books.filter (fun bk => numMatches i bk.author_id) with
      | nil => rfl
      | cons x xs => exact absurd (by rw [hf]; simp) hdeps
    have hnomatch := List.filter_eq_nil_iff.mp hnil
    have hsurv : ∀ bk ∈ s.books, ∀ a ∈ s.authors, a.id = bk.author_id →
        a ∈ s.authors.filter (fun a => !(numMatches i a.id)) := by
      intro bk hbk a ha hid
      refine List.mem_filter.mpr ⟨ha, ?_⟩
      have hbn := hnomatch bk hbk
      simp only [Bool.not_eq_true] at hbn
      rw [Bool.not_eq_true']
      rw [hid]
      exact hbn
    split
    all_goals
      intro bk hbk
      obtain ⟨a, ha, hid⟩ := h bk hbk
      exact ⟨a, hsurv bk hbk a ha hid, hid⟩

theorem refIntact_createBook (s : Store) (b : BookBody)
    (h : refIntact s) : refIntact (createBook s b).2 := by
  unfold createBook
  cases hf : s.authors.find? (fun a => a.id == b.author_id) with
  | none => exact h
  | some a =>
    intro bk hbk
    dsimp only at hbk
    rcases List.mem_append.mp hbk with hmem | hmem
    · exact h bk hmem
    · have hbkeq : bk = ⟨s.nextBookId, b.title, b.description, b.published_date, b.author_id⟩ := by
        simpa using hmem
      subst hbkeq
      refine ⟨a, List.mem_of_find?_eq_some hf, ?_⟩
      have hpa := @List.find?_some Author (fun a => a.id == b.author_id) a s.authors hf
      exact beq_iff_eq.mp hpa

theorem refIntact_updateBook (s : Store) (i : Option Int) (b : BookBody)
    (h : refIntact s) : refIntact (updateBookCore s i b).2 := by
  unfold updateBookCore
  cases hf : s.authors.find? (fun a => a.id == b.author_id) with
  | none => exact h
  | some a =>
    have haid : a.id = b.author_id := by
      have hpa := @List.find?_some Author (fun a => a.id == b.author_id) a s.authors hf
      exact beq_iff_eq.mp hpa
    have hamem : a ∈ s.authors := List.mem_of_find?_eq_some hf
    have key : ∀ bk ∈ s.books.map (fun bk =>
        if numMatches i bk.id then
          { bk with title := b.title, description := b.description,
                    published_date := b.published_date, author_id := b.author_id }
        else bk), ∃ a' ∈ s.authors, a'.id = bk.author_id := by
      intro bk hbk
      obtain ⟨bk0, hbk0, hfa⟩ := List.mem_map.mp hbk
      by_cases hc : numMatches i bk0.id = true
      · rw [← hfa]
        simp only [hc, if_true]
        exact ⟨a, hamem, haid⟩
      · rw [← hfa]
        simp only [hc, if_false]
        exact h bk0 hbk0
    dsimp only
    split <;> exact key

theorem refIntact_deleteBook (s : Store) (i : Option Int)
    (h : refIntact s) : refIntact (deleteBookCore s i).2 := by
  unfold deleteBookCore
  dsimp only
  split
  all_goals
    intro bk hbk
    exact h bk (List.mem_of_mem_filter hbk)

theorem refIntact_applyOp (s : Store) (op : Op)
    (h : refIntact s) : refIntact (applyOp s op) := by
  cases op with
  | createAuthor b => exact refIntact_createAuthor s b h
  | updateAuthor i b => exact refIntact_updateAuthor s i b h
  | deleteAuthor i => exact refIntact_deleteAuthor s i h
  | createBook b => exact refIntact_createBook s b h
  | updateBook i b => exact refIntact_updateBook s i b h
  | deleteBook i => exact refIntact_deleteBook s i h

theorem refIntact_foldl (l : List Op) :
    ∀ s : Store, refIntact s → refIntact (l.foldl applyOp s) := by
  induction l with
  | nil => exact fun s h => h
  | cons op t ih => exact fun s h => ih (applyOp s op) (refIntact_applyOp s op h)

/-! ## Claim theorems -/

/-- C3: Referential integrity is an invariant of the state: starting
from the empty store, after any sequence of sequentially executed
mutating operations (author create/update/delete, book
create/update/delete), every book row's `author_id` references a
currently-existing author row. -/
theorem runOps_refIntact (ops : List Op) : refIntact (runOps ops) := by
  apply refIntact_foldl
  intro bk hbk
  exact absurd hbk (List.not_mem_nil bk)

theorem runOps_refIntact_witness :
    ∃ a ∈ (runOps [Op.createAuthor ⟨"Jane Austen", none, "1775-12-16"⟩,
      Op.createBook ⟨"Pride and Prejudice", none, "1813-01-28", 1⟩]).authors,
      a.id = 1 :=
  runOps_refIntact
    [Op.createAuthor ⟨"Jane Austen", none, "1775-12-16"⟩,
     Op.createBook ⟨"Pride and Prejudice", none, "1813-01-28", 1⟩]
    ⟨1, "Pride and Prejudice", none, "1813-01-28", 1⟩ (by decide)

/-- C1: if at least one book row currently has `author_id` equal to the
requested author id, `DELETE /authors/:id` fails with the conflict
`HttpError` (status 400) and performs no deletion: the whole store —
in particular the author row and every book row referencing it — is
unchanged. -/
theorem deleteAuthor_conflict (s : Store) (idStr : String) (i : Int)
    (hnum : jsNumber idStr = some i)
    (hdep : ∃ bk ∈ s.books, bk.author_id = i) :
    deleteAuthor s idStr =
      (.failure ⟨"Cannot delete author with associated books", 400⟩, s) := by
  unfold deleteAuthor deleteAuthorCore
  rw [hnum]
  obtain ⟨bk, hbk, hid⟩ := hdep
  have hmem : bk ∈ s.books.filter (fun b => numMatches (some i) b.author_id) := by
    refine List.mem_filter.mpr ⟨hbk, ?_⟩
    rw [numMatches_some, hid]
    exact beq_self_eq_true i
  have hpos : (s.books.filter (fun b => numMatches (some i) b.author_id)).length > 0 :=
    List.length_pos.mpr (List.ne_nil_of_mem hmem)
  simp only [hpos, if_true]

theorem deleteAuthor_conflict_witness :
    deleteAuthor ⟨[⟨1, "Jane Austen", none, "1775-12-16"⟩],
        [⟨1, "Pride and Prejudice", none, "1813-01-28", 1⟩], 2, 2⟩ "1" =
      (.failure ⟨"Cannot delete author with associated books", 400⟩,
       ⟨[⟨1, "Jane Austen", none, "1775-12-16"⟩],
        [⟨1, "Pride and Prejudice", none, "1813-01-28", 1⟩], 2, 2⟩) :=
  deleteAuthor_conflict _ "1" 1 (by decide)
    ⟨⟨1, "Pride and Prejudice", none, "1813-01-28", 1⟩, by decide, rfl⟩

/-- C2: a `POST /books` and a `PUT /books/:id` whose body's `author_id`
matches no existing author row both fail with the `Author not found`
`HttpError` (status 404) and leave the store — in particular the books
table — unchanged. -/
theorem bookWrite_missingAuthor (s : Store) (b : BookBody) (idStr : String)
    (habs : ∀ a ∈ s.authors, a.id ≠ b.author_id) :
    createBook s b = (.failure ⟨"Author not found", 404⟩, s) ∧
    updateBook s idStr b = (.failure ⟨"Author not found", 404⟩, s) := by
  have hf : s.authors.find? (fun a => a.id == b.author_id) = none := by
    refine List.find?_eq_none.mpr (fun a ha => ?_)
    rw [Bool.not_eq_true, beq_eq_false_iff_ne]
    exact habs a ha
  constructor
  · unfold createBook
    rw [hf]
  · unfold updateBook updateBookCore
    rw [hf]

theorem bookWrite_missingAuthor_witness :
    createBook ⟨[⟨1, "Jane Austen", none, "1775-12-16"⟩], [], 2, 1⟩
        ⟨"Emma", none, "1815-12-23", 9⟩ =
      (.failure ⟨"Author not found", 404⟩,
       ⟨[⟨1, "Jane Austen", none, "1775-12-16"⟩], [], 2, 1⟩) ∧
    updateBook ⟨[⟨1, "Jane Austen", none, "1775-12-16"⟩], [], 2, 1⟩ "1"
        ⟨"Emma", none, "1815-12-23", 9⟩ =
      (.failure ⟨"Author not found", 404⟩,
       ⟨[⟨1, "Jane Austen", none, "1775-12-16"⟩], [], 2, 1⟩) :=
  bookWrite_missingAuthor _ _ "1" (by decide)

/-- C9 (implicit): in `PUT /books/:id` the author-existence check runs
before the book-existence check, so when neither the book id nor the
supplied `author_id` matches an existing row the response is the
`Author not found` 404 — not `Book not found` — and no row is
written. -/
theorem updateBook_authorCheckFirst (s : Store) (idStr : String) (b : BookBody)
    (habs : ∀ a ∈ s.authors, a.id ≠ b.author_id)
    (hnobook : ∀ bk ∈ s.books, numMatches (jsNumber idStr) bk.id = false) :
    updateBook s idStr b = (.failure ⟨"Author not found", 404⟩, s) := by
  have hf : s.authors.find? (fun a => a.id == b.author_id) = none := by
    refine List.find?_eq_none.mpr (fun a ha => ?_)
    rw [Bool.not_eq_true, beq_eq_false_iff_ne]
    exact habs a ha
  unfold updateBook updateBookCore
  rw [hf]

theorem updateBook_authorCheckFirst_witness :
    updateBook ⟨[⟨1, "Jane Austen", none, "1775-12-16"⟩],
        [⟨1, "Pride and Prejudice", none, "1813-01-28", 1⟩], 2, 2⟩ "8"
        ⟨"Emma", none, "1815-12-23", 9⟩ =
      (.failure ⟨"Author not found", 404⟩,
       ⟨[⟨1, "Jane Austen", none, "1775-12-16"⟩],
        [⟨1, "Pride and Prejudice", none, "1813-01-28", 1⟩], 2, 2⟩) :=
  updateBook_authorCheckFirst _ "8" _ (by decide) (by decide)

/-- C5: a non-numeric id path parameter coerces to `NaN`, which matches
no row, so `GET /authors/:id` and `GET /books/:id` both return their
not-found `HttpError` (status 404) rather than a type error or an
unhandled internal error. -/
theorem nonNumericId_notFound (s : Store) (idStr : String)
    (hnan : jsNumber idStr = none) :
    getAuthorById s idStr = .failure ⟨"Author not found", 404⟩ ∧
    getBookById s idStr = .failure ⟨"Book not found", 404⟩ := by
  constructor
  · unfold getAuthorById getAuthorByIdCore
    rw [hnan]
    rw [List.find?_eq_none.mpr (fun a _ => by
      rw [Bool.not_eq_true, numMatches_none])]
  · unfold getBookById getBookByIdCore
    rw [hnan]
    rw [List.find?_eq_none.mpr (fun r _ => by
      rw [Bool.not_eq_true, numMatches_none])]

theorem nonNumericId_notFound_witness :
    getAuthorById sampleStore "abc" = .failure ⟨"Author not found", 404⟩ ∧
    getBookById sampleStore "abc" = .failure ⟨"Book not found", 404⟩ :=
  nonNumericId_notFound sampleStore "abc" (by decide)

/-- C10 (implicit): a supplied-but-falsy `author` query value (the
empty string, as in `?author=`) skips the filter branch entirely, so
`GET /books` returns the full joined book list, identical to the
no-parameter listing. -/
theorem listBooks_emptyAuthorParam (s : Store) :
    listBooks s (some "") = s.books.map (joinRow s) ∧
    listBooks s (some "") = listBooks s none := by
  constructor <;> simp [listBooks, jsTruthy]

/-- C7: for an integer id with no matching author row (the store
satisfying referential integrity, as every reachable store does),
`GET /authors/:id`, `PUT /authors/:id` with a valid body, and
`DELETE /authors/:id` all yield the `Author not found` `HttpError`
(status 404) and never an unhandled error; the update and the delete
are no-ops leaving the store unchanged. -/
theorem missingAuthor_notFound (s : Store) (idStr : String) (i : Int)
    (b : AuthorBody)
    (hnum : jsNumber idStr = some i)
    (habs : ∀ a ∈ s.authors, a.id ≠ i)
    (hri : refIntact s)
    (hvb : validAuthorBody b) :
    getAuthorById s idStr = .failure ⟨"Author not found", 404⟩ ∧
    updateAuthor s idStr b = (.failure ⟨"Author not found", 404⟩, s) ∧
    deleteAuthor s idStr = (.failure ⟨"Author not found", 404⟩, s) := by
  have hnm : ∀ a ∈ s.authors, numMatches (some i) a.id = false := by
    intro a ha
    rw [numMatches_some, beq_eq_false_iff_ne]
    exact Ne.symm (habs a ha)
  refine ⟨?_, ?_, ?_⟩
  · unfold getAuthorById getAuthorByIdCore
    rw [hnum]
    rw [List.find?_eq_none.mpr (fun a ha => by
      rw [Bool.not_eq_true]; exact hnm a ha)]
  · unfold updateAuthor updateAuthorCore
    rw [hnum]
    dsimp only
    have hmap : s.authors.map (fun a =>
        if numMatches (some i) a.id then
          { a with name := b.name, bio := b.bio, birthdate := b.birthdate }
        else a) = s.authors := by
      refine map_eq_self_of (fun a ha => ?_)
      rw [hnm a ha]
      simp
    rw [hmap]
    rw [List.filter_eq_nil_iff.mpr (fun a ha => by
      rw [Bool.not_eq_true]; exact hnm a ha)]
    rfl
  · unfold deleteAuthor deleteAuthorCore
    rw [hnum]
    dsimp only
    have hbooks : s.books.filter (fun bk => numMatches (some i) bk.author_id) = [] := by
      refine List.filter_eq_nil_iff.mpr (fun bk hbk => ?_)
      obtain ⟨a, ha, hid⟩ := hri bk hbk
      rw [Bool.not_eq_true, numMatches_some, beq_eq_false_iff_ne]
      rw [← hid]
      exact Ne.symm (habs a ha)
    rw [hbooks]
    have hrem : s.authors.filter (fun a => !(numMatches (some i) a.id)) = s.authors := by
      refine List.filter_eq_self.mpr (fun a ha => ?_)
      rw [hnm a ha]
      rfl
    rw [hrem]
    simp

theorem missingAuthor_notFound_witness :
    getAuthorById sampleStore "7" = .failure ⟨"Author not found", 404⟩ ∧
    updateAuthor sampleStore "7" ⟨"Jane Austen", none, "1775-12-16"⟩ =
      (.failure ⟨"Author not found", 404⟩, sampleStore) ∧
    deleteAuthor sampleStore "7" = (.failure ⟨"Author not found", 404⟩, sampleStore) :=
  missingAuthor_notFound sampleStore "7" 7 ⟨"Jane Austen", none, "1775-12-16"⟩
    (by decide) (by decide)
    (fun bk hbk => by
      refine ⟨⟨1, "Jane Austen", none, "1775-12-16"⟩, by decide, ?_⟩
      have : bk = (⟨1, "Pride and Prejudice", none, "1813-01-28", 1⟩ : Book) := by
        simpa [sampleStore] using hbk
      rw [this])
    (by decide)

/-- C8: for every valid author payload, `POST /authors` responds 201
with a created record carrying the assigned id `s.nextAuthorId`, and a
subsequent `GET /authors/:id` on that id returns a record equal to the
one returned by the create. -/
theorem createAuthor_roundTrip (s : Store) (b : AuthorBody) (idStr : String)
    (hvb : validAuthorBody b)
    (hfresh : ∀ a ∈ s.authors, a.id ≠ s.nextAuthorId)
    (hnum : jsNumber idStr = some s.nextAuthorId) :
    (createAuthor s b).1 =
      .success 201 ⟨s.nextAuthorId, b.name, b.bio, b.birthdate⟩ ∧
    getAuthorById (createAuthor s b).2 idStr =
      .success 200 ⟨s.nextAuthorId, b.name, b.bio, b.birthdate⟩ := by
  refine ⟨rfl, ?_⟩
  unfold getAuthorById getAuthorByIdCore createAuthor
  rw [hnum]
  dsimp only
  rw [List.find?_append]
  have h1 : s.authors.find? (fun a => numMatches (some s.nextAuthorId) a.id) = none := by
    refine List.find?_eq_none.mpr (fun a ha => ?_)
    rw [Bool.not_eq_true, numMatches_some, beq_eq_false_iff_ne]
    exact Ne.symm (hfresh a ha)
  rw [h1, Option.none_or]
  have h2 : [(⟨s.nextAuthorId, b.name, b.bio, b.birthdate⟩ : Author)].find?
      (fun a => numMatches (some s.nextAuthorId) a.id) =
      some ⟨s.nextAuthorId, b.name, b.bio, b.birthdate⟩ := by
    simp [List.find?, numMatches_some]
  rw [h2]

theorem createAuthor_roundTrip_witness :
    (createAuthor emptyStore ⟨"Jane Austen", none, "1775-12-16"⟩).1 =
      .success 201 ⟨1, "Jane Austen", none, "1775-12-16"⟩ ∧
    getAuthorById (createAuthor emptyStore ⟨"Jane Austen", none, "1775-12-16"⟩).2 "1" =
      .success 200 ⟨1, "Jane Austen", none, "1775-12-16"⟩ :=
  createAuthor_roundTrip emptyStore ⟨"Jane Austen", none, "1775-12-16"⟩ "1"
    (by decide) (by decide) (by decide)

/-- C4: with a numeric `author` filter value `i`, `GET /books` returns
exactly the book rows whose `author_id` equals `i` (no others, none
omitted, in table order), and — the authors' ids being unique, as the
primary key guarantees — each returned row's `author_name` equals the
name of the author row whose id matches that book's `author_id`. -/
theorem listBooks_authorFilter (s : Store) (q : String) (i : Int)
    (hq : q ≠ "")
    (hnum : jsNumber q = some i)
    (hnd : (s.authors.map Author.id).Nodup) :
    (listBooks s (some q)).map stripRow =
      s.books.filter (fun bk => bk.author_id == i) ∧
    ∀ r ∈ listBooks s (some q), ∀ a ∈ s.authors,
      a.id = r.author_id → r.author_name = some a.name := by
  have htr : jsTruthy q = true := by
    rw [jsTruthy, bne_iff_ne]
    exact hq
  have hlb : listBooks s (some q) =
      (s.books.map (joinRow s)).filter (fun r => numMatches (some i) r.author_id) := by
    unfold listBooks
    dsimp only
    rw [htr, hnum]
    simp only [if_true]
  constructor
  · rw [hlb, List.filter_map, List.map_map]
    have hcomp : (s.books.filter
        ((fun r => numMatches (some i) r.author_id) ∘ joinRow s)).map
          (stripRow ∘ joinRow s) =
        s.books.filter ((fun r => numMatches (some i) r.author_id) ∘ joinRow s) :=
      map_eq_self_of (fun bk _ => rfl)
    rw [hcomp]
    refine List.filter_congr (fun bk _ => ?_)
    rw [Function.comp_apply]
    show numMatches (some i) bk.author_id = (bk.author_id == i)
    rw [numMatches_some, int_beq_comm]
  · intro r hr a ha hid
    rw [hlb] at hr
    obtain ⟨bk, hbk, hjr⟩ := List.mem_map.mp (List.mem_of_mem_filter hr)
    subst hjr
    show ((s.authors.find? (fun x => x.id == bk.author_id)).map Author.name) = some a.name
    cases hf : s.authors.find? (fun x => x.id == bk.author_id) with
    | none =>
      exfalso
      apply List.find?_eq_none.mp hf a ha
      rw [beq_iff_eq]
      exact hid
    | some a' =>
      have ha' : a' ∈ s.authors := List.mem_of_find?_eq_some hf
      have hpa := @List.find?_some Author (fun x => x.id == bk.author_id) a' s.authors hf
      have heq : a'.id = bk.author_id := beq_iff_eq.mp hpa
      have hids : a'.id = a.id := heq.trans hid.symm
      have haa : a' = a := List.inj_on_of_nodup_map hnd ha' ha hids
      rw [haa]
      rfl

theorem listBooks_authorFilter_witness :
    (listBooks sampleStore (some "1")).map stripRow =
      [⟨1, "Pride and Prejudice", none, "1813-01-28", 1⟩] ∧
    (joinRow sampleStore ⟨1, "Pride and Prejudice", none, "1813-01-28", 1⟩).author_name =
      some "Jane Austen" :=
  ⟨((listBooks_authorFilter sampleStore "1" 1 (by decide) (by decide) (by decide)).1).trans
    (by decide),
   (listBooks_authorFilter sampleStore "1" 1 (by decide) (by decide) (by decide)).2
    (joinRow sampleStore ⟨1, "Pride and Prejudice", none, "1813-01-28", 1⟩) (by decide)
    ⟨1, "Jane Austen", none, "1775-12-16"⟩ (by decide) rfl⟩

/-- C6 counterexample: an error with declared status code 0 is not
mapped to status 0 with its own message — the JavaScript `||` default
treats the falsy 0 like an undeclared code, so the responder sends
(500, "Internal Server Error") instead. -/
theorem errorHandler_declaredZero_cex :
    errorHandler ⟨"boom", some 0⟩ = (500, "Internal Server Error") ∧
    errorHandler ⟨"boom", some 0⟩ ≠ (0, "boom") := by decide

/-- C6 (amended): the centralized responder maps every failure to the
envelope `{ error: message }` with the error's declared status code
when that code is nonzero, and with 500 when no code is declared or the
declared code is the falsy 0; whenever the resulting status is 500 the
message sent is the fixed string "Internal Server Error" regardless of
the original error's message, and otherwise it is the original
message. -/
theorem errorHandler_envelope (e : ApiError) :
    (∀ n, e.statusCode = some n → n ≠ 0 →
      errorHandler e = (n, if n = 500 then "Internal Server Error" else e.message)) ∧
    ((e.statusCode = none ∨ e.statusCode = some 0) →
      errorHandler e = (500, "Internal Server Error")) := by
  constructor
  · intro n hn h0
    unfold errorHandler
    rw [hn]
    simp [h0]
  · intro hn
    unfold errorHandler
    rcases hn with hn | hn <;> rw [hn] <;> simp

theorem errorHandler_envelope_witness :
    errorHandler ⟨"Author not found", some 404⟩ = (404, "Author not found") := by
  have h := (errorHandler_envelope ⟨"Author not found", some 404⟩).1 404 rfl (by decide)
  simpa using h
